import Mathlib

/-!
Verification development for the autopkg macOS installer recipes
(`DownloadMacOS.py`, `macOSReleaseProvider.py`, `macOSDownloader.py`).

The Python sources are shallowly embedded: pure computations (catalog-line
parsing, version-string sorting) become Lean functions on `String`/`List Char`;
effectful operations (subprocess invocations, the `hdiutil` mount table, the
filesystem) become explicit state passing over small world structures, with
Python exceptions modelled by `Except`.  String helpers mirror the semantics of
the Python `str` methods used by the source (`split` with a one-character
separator, `strip`, `rstrip('K')`, `in`, `int(...)`, `<` on `str`).
-/

/-- Python exception values that the embedded code can raise.
`processorError` is autopkg's `ProcessorError`; the others are built-in
Python exceptions raised by the source (`IndexError` from `[...]`,
`ValueError` from `int(...)`, `CalledProcessError` from
`subprocess.check_output`, `OSError` from `shutil.copytree`). -/
inductive PyErr where
  | processorError (msg : String)
  | indexError
  | valueError
  | calledProcessError
  | osError
deriving DecidableEq, Repr

deriving instance DecidableEq for Except

/-! ## Python string primitives -/

/-- The whitespace characters stripped by Python `str.strip()`. -/
def pyIsSpace (c : Char) : Bool :=
  c = ' ' || c = '\t' || c = '\n' || c = '\r' || c = '\x0b' || c = '\x0c'

/-- Python `str.strip()`: remove leading and trailing whitespace. -/
def pyStrip (s : String) : String :=
  ⟨((s.data.dropWhile pyIsSpace).reverse.dropWhile pyIsSpace).reverse⟩

/-- Python `str.rstrip('K')`: remove every trailing `'K'`. -/
def pyRstripK (s : String) : String :=
  ⟨(s.data.reverse.dropWhile (fun c => c = 'K')).reverse⟩

/-- Python `str.split(sep)` for a one-character separator, on character
lists: every occurrence of the separator splits, empty pieces are kept,
and the empty input yields one empty piece. -/
def splitOnChar (sep : Char) : List Char → List (List Char)
  | [] => [[]]
  | x :: xs =>
    let r := splitOnChar sep xs
    if x = sep then [] :: r
    else
      match r with
      | y :: ys => (x :: y) :: ys
      | [] => [[x]]

/-- Python `str.split(sep)` for a one-character separator. -/
def pySplit (sep : Char) (s : String) : List String :=
  (splitOnChar sep s.data).map (fun l => ⟨l⟩)

/-- Does the first list lead (start) the second one? -/
def leadsIn : List Char → List Char → Bool
  | [], _ => true
  | _ :: _, [] => false
  | a :: as, b :: bs => a = b && leadsIn as bs

/-- Does `needle` occur contiguously inside the list? -/
def occursIn (needle : List Char) : List Char → Bool
  | [] => needle.isEmpty
  | b :: bs => leadsIn needle (b :: bs) || occursIn needle bs

/-- Python `sub in hay` on strings: contiguous-substring containment. -/
def containsSub (hay sub : String) : Bool :=
  occursIn sub.data hay.data

/-- Python `str` comparison `a <= b`: lexicographic on code points. -/
def pyStrLeAux : List Char → List Char → Bool
  | [], _ => true
  | _ :: _, [] => false
  | c :: cs, d :: ds =>
    if c.toNat < d.toNat then true
    else if d.toNat < c.toNat then false
    else pyStrLeAux cs ds

/-- Python `str` comparison `a <= b`. -/
def pyStrLe (a b : String) : Bool :=
  pyStrLeAux a.data b.data

/-- Digit runs accepted by Python `int(...)` after the optional sign:
nonempty, and underscores only strictly between digits. -/
def uscoreOk : List Char → Bool
  | [] => false
  | [c] => c.isDigit
  | c :: d :: rest =>
    c.isDigit &&
      (if d = '_' then uscoreOk rest else uscoreOk (d :: rest))

/-- Decimal value of a digit run, ignoring underscores. -/
def digitsVal (cs : List Char) : Nat :=
  (cs.filter (fun c => c ≠ '_')).foldl (fun n c => n * 10 + (c.toNat - '0'.toNat)) 0

/-- Python `int(s)` on a decimal string: strips surrounding whitespace,
allows one leading sign, digits with single underscores between them;
`none` models a raised `ValueError`.  (Non-ASCII digits, which never occur
in the catalog listings, are not modelled.) -/
def pyInt? (s : String) : Option Int :=
  match (pyStrip s).data with
  | '+' :: rest => if uscoreOk rest then some ((digitsVal rest : Nat) : Int) else none
  | '-' :: rest => if uscoreOk rest then some (-((digitsVal rest : Nat) : Int)) else none
  | cs => if uscoreOk cs then some ((digitsVal cs : Nat) : Int) else none

/-! ## Catalog-line parsing

Both `DownloadMacOS.get_update` and `macOSReleaseProvider.get_update` run
`update_info = [s.split(':')[1].strip() for s in line.split(',')]` on every
output line containing `"Version"`. -/

/-- The list comprehension `[s.split(':')[1].strip() for s in segs]`:
a segment without a colon makes `split(':')[1]` raise `IndexError`. -/
def segsGo : List String → Except PyErr (List String)
  | [] => .ok []
  | s :: ss =>
    match (pySplit ':' s)[1]? with
    | none => .error .indexError
    | some t =>
      match segsGo ss with
      | .ok rest => .ok (pyStrip t :: rest)
      | .error e => .error e

/-- `[s.split(':')[1].strip() for s in line.split(',')]`. -/
def parseSegments (line : String) : Except PyErr (List String) :=
  segsGo (pySplit ',' line)

/-- Stable descending insertion by a string key: the element is placed in
front of the first element whose key is `<=` its key.  `sorted(l, key=k,
reverse=True)` in Python is the stable descending sort, which this
insertion sort computes. -/
def insertDesc {α : Type} (key : α → String) (x : α) : List α → List α
  | [] => [x]
  | y :: ys => if pyStrLe (key y) (key x) then x :: y :: ys else y :: insertDesc key x ys

/-- Python `sorted(l, key=lambda k: k['version'], reverse=True)`:
stable, descending under lexical string comparison of the key. -/
def sortedDesc {α : Type} (key : α → String) (l : List α) : List α :=
  l.foldr (insertDesc key) []

/-- Result of `subprocess.run([...], stdout=subprocess.PIPE)` when the call
itself did not raise: exit status and captured standard output (already
decoded).  Note `subprocess.run` without `check=True` does not raise on a
non-zero exit status. -/
structure CmdResult where
  returncode : Int
  stdout : String
deriving DecidableEq, Repr

namespace DownloadMacOS

/-- One parsed catalog entry of `DownloadMacOS.get_update`; this variant
converts the size to an integer byte count (`int(...rstrip('K')) * 1000`). -/
structure UpdateRecord where
  name : String
  version : String
  size : Int
deriving DecidableEq, Repr

/-- Parsing of one catalog line by `DownloadMacOS.get_update` (lines
102–106): positional assignment of the three comma-segments to name,
version and size, the latter through `int(update_info[2].rstrip('K')) * 1000`. -/
def parseLine (line : String) : Except PyErr UpdateRecord :=
  match parseSegments line with
  | .error e => .error e
  | .ok update_info =>
    match update_info[0]?, update_info[1]?, update_info[2]? with
    | some n, some v, some sz =>
      match pyInt? (pyRstripK sz) with
      | some k => .ok ⟨n, v, k * 1000⟩
      | none => .error .valueError
    | _, _, _ => .error .indexError

/-- The parsing loop of `DownloadMacOS.get_update` (lines 98–106): every
line containing `"Version"` is parsed and appended; a parse exception
aborts the loop. -/
def parseLines : List String → Except PyErr (List UpdateRecord)
  | [] => .ok []
  | l :: ls =>
    if containsSub l "Version" then
      match parseLine l with
      | .error e => .error e
      | .ok r =>
        match parseLines ls with
        | .ok rest => .ok (r :: rest)
        | .error e => .error e
    else parseLines ls

/-- `DownloadMacOS.get_update` (lines 90–121).  The argument models the
outcome of `subprocess.run(['/usr/sbin/softwareupdate',
'--list-full-installers'], stdout=subprocess.PIPE)`: `.error err` is the
call raising (caught and re-raised as `ProcessorError(err)`), `.ok` is a
completed run with its exit status and captured output.  The exit status is
never inspected by the source.  The decoded output is split on newlines,
parsed, checked nonempty, sorted descending by the version string
(Python string comparison), and the first record returned. -/
def get_update (run : Except String CmdResult) : Except PyErr UpdateRecord :=
  match run with
  | .error err => .error (.processorError err)
  | .ok result =>
    match parseLines (pySplit '\n' result.stdout) with
    | .error e => .error e
    | .ok update_list =>
      if update_list.isEmpty then .error (.processorError "No updates have been found")
      else
        match sortedDesc (fun k => k.version) update_list with
        | u :: _ => .ok u
        | [] => .error (.processorError "No updates have been found")

end DownloadMacOS

namespace macOSReleaseProvider

/-- One parsed catalog entry of `macOSReleaseProvider.get_update`; this
variant keeps the size as the raw string. -/
structure UpdateRecord where
  name : String
  version : String
  size : String
deriving DecidableEq, Repr

/-- Parsing of one catalog line by `macOSReleaseProvider.get_update`
(lines 42–46): positional assignment, size kept verbatim. -/
def parseLine (line : String) : Except PyErr UpdateRecord :=
  match parseSegments line with
  | .error e => .error e
  | .ok update_info =>
    match update_info[0]?, update_info[1]?, update_info[2]? with
    | some n, some v, some sz => .ok ⟨n, v, sz⟩
    | _, _, _ => .error .indexError

/-- The parsing loop of `macOSReleaseProvider.get_update` (lines 38–46). -/
def parseLines : List String → Except PyErr (List UpdateRecord)
  | [] => .ok []
  | l :: ls =>
    if containsSub l "Version" then
      match parseLine l with
      | .error e => .error e
      | .ok r =>
        match parseLines ls with
        | .ok rest => .ok (r :: rest)
        | .error e => .error e
    else parseLines ls

/-- `macOSReleaseProvider.get_update` (lines 30–61); identical to the
combined downloader's except for the raw size string and the
empty-list error message. -/
def get_update (run : Except String CmdResult) : Except PyErr UpdateRecord :=
  match run with
  | .error err => .error (.processorError err)
  | .ok result =>
    match parseLines (pySplit '\n' result.stdout) with
    | .error e => .error e
    | .ok update_list =>
      if update_list.isEmpty then .error (.processorError "Could not receive or parse updates")
      else
        match sortedDesc (fun k => k.version) update_list with
        | u :: _ => .ok u
        | [] => .error (.processorError "Could not receive or parse updates")

end macOSReleaseProvider

/-! ## Dotted-numeric version comparison (spec side) -/

/-- Modelled from the spec: the dotted-numeric components of a version
string, each dot-separated piece read as a decimal number (a non-numeric
piece, absent from real catalog listings, reads as 0). -/
def dottedComponents (s : String) : List Nat :=
  (splitOnChar '.' s.data).map (fun cs =>
    if cs ≠ [] && cs.all Char.isDigit then digitsVal cs else 0)

/-- Lexicographic strict order on numeric component lists. -/
def ltLexNat : List Nat → List Nat → Bool
  | [], [] => false
  | [], _ :: _ => true
  | _ :: _, [] => false
  | x :: xs, y :: ys =>
    if x < y then true else if y < x then false else ltLexNat xs ys

/-- Modelled from the spec: dotted-numeric-component strict comparison of
version strings, missing trailing components read as zero. -/
def dottedLt (a b : String) : Bool :=
  let xa := dottedComponents a
  let xb := dottedComponents b
  let n := max xa.length xb.length
  ltLexNat (xa ++ List.replicate (n - xa.length) 0) (xb ++ List.replicate (n - xb.length) 0)

/-! ## Disk images

`get_dmg_mount_point`, `mount_dmg` and `unmount_dmg` appear with identical
bodies in `DownloadMacOS.py` (lines 31–55) and `macOSDownloader.py`
(lines 44–67); they are embedded once.  The state of the external
`hdiutil` utility (its mount table, the outcome of an `attach`, the
outcome of a `detach -force`) is a `MountWorld`; a successful `attach`
registers the attached image in the mount table, as the real utility
does. -/

/-- One entry of `hdiutil info -plist`: the image path and, per
system-entity, its `mount-point` key if present. -/
structure Image where
  imagePath : String
  entities : List (Option String)
deriving DecidableEq, Repr

/-- External disk-image state: the current mount table, the entities an
`attach` would report (`none` models the attach command or its plist
parse failing), and whether a `detach -force` succeeds. -/
structure MountWorld where
  images : List Image
  attachEntities : Option (List (Option String))
  detachOk : Bool
deriving DecidableEq, Repr

/-- `get_dmg_mount_point` (DownloadMacOS.py lines 31–38): scan
`hdiutil info` for an image with this path and return the first
`mount-point` among its system-entities. -/
def get_dmg_mount_point : List Image → String → Option String
  | [], _ => none
  | img :: rest, path =>
    if img.imagePath = path then
      match img.entities.findSome? id with
      | some mp => some mp
      | none => get_dmg_mount_point rest path
    else get_dmg_mount_point rest path

/-- Result of `mount_dmg`: the returned mount point (or raised
exception), the disk-image state afterwards, and how many times the
`hdiutil attach` operation was invoked. -/
structure MountOut where
  result : Except PyErr String
  world : MountWorld
  attaches : Nat
deriving DecidableEq, Repr

/-- `mount_dmg` (DownloadMacOS.py lines 40–51): `if mount_point:` returns
the looked-up mount point only when it is truthy — a `None` lookup result
and an empty-string mount point are both falsy in Python and fall through
to the attach (here the `None` of the lookup is mapped to `""` so that
the truthiness test is the emptiness test, as in `get_os_version`).  A
failing attach raises `ProcessorError("Could not mount ...")`; a
successful one registers the attachment in the mount table and returns
the first entity's `mount-point` without any truthiness check
(`[...][0]` raises `IndexError` when no entity has one). -/
def mount_dmg (w : MountWorld) (path : String) : MountOut :=
  let mount_point := (get_dmg_mount_point w.images path).getD ""
  if mount_point = "" then
    match w.attachEntities with
    | none => ⟨.error (.processorError ("Could not mount " ++ path)), w, 1⟩
    | some entities =>
      let w2 : MountWorld := { w with images := w.images ++ [⟨path, entities⟩] }
      match entities.findSome? id with
      | some mp => ⟨.ok mp, w2, 1⟩
      | none => ⟨.error .indexError, w2, 1⟩
  else ⟨.ok mount_point, w, 0⟩

/-- `unmount_dmg` (DownloadMacOS.py lines 53–55): `subprocess.check_output
(['/usr/bin/hdiutil', 'detach', path, '-force'])` — it raises
`CalledProcessError` on a non-zero exit; a successful detach removes the
image exposing that mount point from the mount table. -/
def unmount_dmg (w : MountWorld) (path : String) : Except PyErr MountWorld :=
  if w.detachOk then
    .ok { w with images := w.images.filter (fun img => !(img.entities.contains (some path))) }
  else .error .calledProcessError

/-! ## Version extraction -/

/-- `os.path.join` for the relative second components used by the source. -/
def pathJoin (a b : String) : String := a ++ "/" ++ b

/-- The filesystem and property-list environment read by
`get_os_version`.  `get_plist_key` — Modelled from the spec: the helper
`self.get_plist_key` is called by the source but defined outside `src/`;
per the spec it reads a nested key path of a property-list file and
returns its value verbatim.  `readNested` models
`plistlib.readPlist(path)['Assets'][0]['OSVersion']`, `none` standing for
any exception of that read chain. -/
structure FS where
  isfile : String → Bool
  get_plist_key : String → String → String
  readNested : String → Option String

/-- Result of `get_os_version`: the returned string (or raised
exception), the disk-image state afterwards, and how many attach and
detach operations were invoked. -/
structure ExtractOut where
  result : Except PyErr String
  world : MountWorld
  attaches : Nat
  detaches : Nat
deriving DecidableEq, Repr

/-- `get_os_version` (identical in DownloadMacOS.py lines 69–86 and
macOSDownloader.py lines 81–98): read the direct
`Contents/SharedSupport/InstallInfo.plist` descriptor if it exists; else
mount `Contents/SharedSupport/SharedSupport.dmg` if it exists and read
the nested asset descriptor, returning the empty string when that read
raises; the `finally:` block invokes `unmount_dmg` on every exit path of
the read, and an exception raised there replaces the pending result
(Python `finally` semantics). -/
def get_os_version (fs : FS) (w : MountWorld) (app_path : String) : ExtractOut :=
  let installinfo_plist := pathJoin app_path "Contents/SharedSupport/InstallInfo.plist"
  if fs.isfile installinfo_plist then
    ⟨.ok (fs.get_plist_key installinfo_plist "System Image Info:version"), w, 0, 0⟩
  else
    let sharedsupport_dmg := pathJoin app_path "Contents/SharedSupport/SharedSupport.dmg"
    if fs.isfile sharedsupport_dmg then
      let m := mount_dmg w sharedsupport_dmg
      match m.result with
      | .error e => ⟨.error e, m.world, m.attaches, 0⟩
      | .ok mountpoint =>
        if mountpoint = "" then ⟨.ok "", m.world, m.attaches, 0⟩
        else
          let info_plist_path :=
            pathJoin (pathJoin mountpoint "com_apple_MobileAsset_MacSoftwareUpdate")
              "com_apple_MobileAsset_MacSoftwareUpdate.xml"
          let tryRes : Except PyErr String :=
            match fs.readNested info_plist_path with
            | some v => .ok v
            | none => .ok ""
          match unmount_dmg m.world mountpoint with
          | .ok w2 => ⟨tryRes, w2, m.attaches, 1⟩
          | .error e => ⟨.error e, m.world, m.attaches, 1⟩
    else ⟨.ok "", w, 0, 0⟩

/-! ## Cache manager (`macOSDownloader.main`) -/

/-- The input variables read by `macOSDownloader.main`:
`RECIPE_CACHE_DIR`, `version` and `release` (`size` is only logged). -/
structure CacheEnv where
  recipeCacheDir : String
  version : String
  release : String
deriving DecidableEq, Repr

/-- External state seen by `macOSDownloader.main`: which cache paths
exist, what `get_local_installer('/Applications', version)` currently
finds, the outcome of running the fetch command (`.error err` models
`subprocess.run` raising), what a download materializes in
`/Applications`, and whether `shutil.copytree` succeeds. -/
structure CacheWorld where
  fsPaths : List String
  appsInstaller : Option String
  downloadExec : Except String Unit
  downloadMaterializes : Option String
  copyOk : Bool
deriving DecidableEq, Repr

/-- Result of `macOSDownloader.main`: normal return or raised exception,
the `changed`, `pathname` and `cache_dir` output variables, whether the
summary result was set, the state afterwards, and how many download and
copy operations were invoked. -/
structure CMOut where
  result : Except PyErr Unit
  changed : Bool
  pathname : String
  cache_dir : String
  summarySet : Bool
  world : CacheWorld
  downloads : Nat
  copies : Nat
deriving DecidableEq, Repr

/-- `os.path.join(self.env['RECIPE_CACHE_DIR'], "downloads",
self.env['version'])`. -/
def cachePath (env : CacheEnv) : String :=
  pathJoin (pathJoin env.recipeCacheDir "downloads") env.version

/-- `os.path.join(cache_path, "Install {}.app".format(self.env['release']))`. -/
def installerCachePath (env : CacheEnv) : String :=
  pathJoin (cachePath env) ("Install " ++ env.release ++ ".app")

namespace macOSDownloader

/-- `macOSDownloader.main` (lines 117–151): compute the cache paths; if
the cached bundle exists return immediately with `changed = False`;
otherwise set `changed = True`, use the `/Applications` bundle if the
locator finds one, else run the fetch command (`ProcessorError` if it
raises, and again if the locator still finds nothing afterwards, in which
case the summary is not set), then copy the source bundle into the cache
(`shutil.copytree`, whose failure propagates). -/
def main (env : CacheEnv) (w : CacheWorld) : CMOut :=
  let cache_path := cachePath env
  let icp := installerCachePath env
  if icp ∈ w.fsPaths then
    ⟨.ok (), false, icp, cache_path, false, w, 0, 0⟩
  else
    match w.appsInstaller with
    | some _installer =>
      if w.copyOk then
        ⟨.ok (), true, icp, cache_path, false, { w with fsPaths := icp :: w.fsPaths }, 0, 1⟩
      else ⟨.error .osError, true, icp, cache_path, false, w, 0, 1⟩
    | none =>
      match w.downloadExec with
      | .error err => ⟨.error (.processorError err), true, icp, cache_path, false, w, 1, 0⟩
      | .ok _ =>
        match w.downloadMaterializes with
        | none =>
          ⟨.error (.processorError "Download was not successful or cannot find downloaded item"),
            true, icp, cache_path, false, { w with appsInstaller := none }, 1, 0⟩
        | some inst =>
          let w1 : CacheWorld := { w with appsInstaller := some inst }
          if w.copyOk then
            ⟨.ok (), true, icp, cache_path, true, { w1 with fsPaths := icp :: w1.fsPaths }, 1, 1⟩
          else ⟨.error .osError, true, icp, cache_path, true, w1, 1, 1⟩

end macOSDownloader

/-! ## Claim-side predicates on catalog lines -/

/-- A catalog line splits into at least three comma-separated segments,
each containing a colon. -/
def segmentsShapeOk (line : String) : Bool :=
  decide (3 ≤ (pySplit ',' line).length) && (pySplit ',' line).all (fun s => containsSub s ":")

/-- The third parsed value of a catalog line, after stripping trailing
`'K'`, is a decimal integer (the extra requirement of the byte-converting
variant). -/
def sizeIntOk (line : String) : Bool :=
  match parseSegments line with
  | .ok info =>
    match info[2]? with
    | some sz => (pyInt? (pyRstripK sz)).isSome
    | none => false
  | .error _ => false

/-- The fixed relative path of the nested asset descriptor inside a
mounted support image. -/
def nestedPath (mp : String) : String :=
  pathJoin (pathJoin mp "com_apple_MobileAsset_MacSoftwareUpdate")
    "com_apple_MobileAsset_MacSoftwareUpdate.xml"

/-! ## Concrete environments used by the closed checks -/

/-- An installer bundle path. -/
def appEx : String := "/Applications/Install macOS Monterey.app"

/-- Its embedded support image path. -/
def dmgPathEx : String := pathJoin appEx "Contents/SharedSupport/SharedSupport.dmg"

/-- A mount point. -/
def mpEx : String := "/Volumes/Shared Support"

/-- A filesystem on which every descriptor file exists. -/
def fsC2 : FS := ⟨fun _ => true, fun _ _ => "12.3.1", fun _ => none⟩

/-- An empty mount table. -/
def wC2 : MountWorld := ⟨[], none, true⟩

/-- A bundle with only the support image, whose nested read succeeds. -/
def fsC4 : FS := ⟨fun p => decide (p = dmgPathEx), fun _ _ => "", fun _ => some "12.3"⟩

/-- The support image already mounted; `detach` fails. -/
def wC4 : MountWorld := ⟨[⟨dmgPathEx, [some mpEx]⟩], none, false⟩

/-- A bundle with only the support image, whose nested read fails. -/
def fsC5 : FS := ⟨fun p => decide (p = dmgPathEx), fun _ _ => "", fun _ => none⟩

/-- The support image already mounted; `detach` fails. -/
def wC5f : MountWorld := ⟨[⟨dmgPathEx, [some mpEx]⟩], none, false⟩

/-- The support image already mounted; `detach` succeeds. -/
def wC5t : MountWorld := ⟨[⟨dmgPathEx, [some mpEx]⟩], none, true⟩

/-- Cache-manager inputs. -/
def envC6 : CacheEnv := ⟨"/cache", "12.6.3", "macOS Monterey"⟩

/-- Nothing cached; the installer is already in `/Applications`. -/
def wC6 : CacheWorld := ⟨[], some appEx, .ok (), none, true⟩

/-- The versioned cache entry already exists. -/
def wC6cached : CacheWorld := ⟨[installerCachePath envC6], some appEx, .ok (), none, true⟩

/-- Image not attached yet; an attach reports two entities, the second
with a mount point. -/
def wC7 : MountWorld := ⟨[], some [none, some mpEx], true⟩

/-- The image path mounted twice in claim C7's scenario. -/
def pC7 : String := "/tmp/SharedSupport.dmg"

/-! ## Helper lemmas -/

theorem dm_parseLines_no_version (ls : List String)
    (h : ∀ l ∈ ls, containsSub l "Version" = false) :
    DownloadMacOS.parseLines ls = .ok [] := by
  induction ls with
  | nil => rfl
  | cons l ls ih =>
    rw [DownloadMacOS.parseLines]
    simp only [h l (List.mem_cons_self l ls), Bool.false_eq_true, if_false]
    exact ih (fun x hx => h x (List.mem_cons_of_mem l hx))

theorem rp_parseLines_no_version (ls : List String)
    (h : ∀ l ∈ ls, containsSub l "Version" = false) :
    macOSReleaseProvider.parseLines ls = .ok [] := by
  induction ls with
  | nil => rfl
  | cons l ls ih =>
    rw [macOSReleaseProvider.parseLines]
    simp only [h l (List.mem_cons_self l ls), Bool.false_eq_true, if_false]
    exact ih (fun x hx => h x (List.mem_cons_of_mem l hx))

/-! ## Claim theorems -/

/-- C1: the claim says latest-release resolution selects the maximum under
dotted-numeric-component comparison, so a listing with both "12.9" and
"12.10" selects "12.10".  The code sorts the version strings with Python
string comparison (`sorted(..., key=lambda k: k['version'], reverse=True)`),
which is lexical: on this listing both `get_update` variants return the
"12.9" record although "12.9" is strictly below "12.10" in
dotted-numeric order. -/
theorem c1_version_sort_is_lexical_not_dotted :
    DownloadMacOS.get_update (.ok ⟨0,
      "Title: macOS Monterey, Version: 12.10, Size: 100K\nTitle: macOS Monterey, Version: 12.9, Size: 100K"⟩)
      = .ok ⟨"macOS Monterey", "12.9", 100000⟩ ∧
    macOSReleaseProvider.get_update (.ok ⟨0,
      "Title: macOS Monterey, Version: 12.10, Size: 100K\nTitle: macOS Monterey, Version: 12.9, Size: 100K"⟩)
      = .ok ⟨"macOS Monterey", "12.9", "100K"⟩ ∧
    dottedLt "12.9" "12.10" = true :=
  ⟨by decide, by decide, by decide⟩

/-- C8: the catalog line `Title: macOS Monterey, Version: 12.3, Size:
9453092K` parses to name "macOS Monterey", version "12.3", with size
9453092000 as an integer byte count in the combined downloader variant and
with the raw string "9453092K" in the standalone resolver variant. -/
theorem c8_example_line_parses :
    DownloadMacOS.parseLine "Title: macOS Monterey, Version: 12.3, Size: 9453092K"
      = .ok ⟨"macOS Monterey", "12.3", 9453092000⟩ ∧
    macOSReleaseProvider.parseLine "Title: macOS Monterey, Version: 12.3, Size: 9453092K"
      = .ok ⟨"macOS Monterey", "12.3", "9453092K"⟩ :=
  ⟨by decide, by decide⟩

/-- C3 counterexample: the claim says a non-zero exit status of the
catalog-listing command makes `get_update` fail with a `ProcessorError`.
`subprocess.run` without `check=True` does not raise on a non-zero exit,
and the source never inspects `returncode`: with exit status 1 and a
well-formed listing on stdout, both variants return an update record. -/
theorem c3_nonzero_exit_still_returns_record :
    DownloadMacOS.get_update (.ok ⟨1, "Title: macOS Ventura, Version: 13.1, Size: 11900000K"⟩)
      = .ok ⟨"macOS Ventura", "13.1", 11900000000⟩ ∧
    macOSReleaseProvider.get_update (.ok ⟨1, "Title: macOS Ventura, Version: 13.1, Size: 11900000K"⟩)
      = .ok ⟨"macOS Ventura", "13.1", "11900000K"⟩ :=
  ⟨by decide, by decide⟩

/-- C3 (amended): if the catalog-listing command fails to execute at all,
`get_update` fails with a `ProcessorError`; a non-zero exit status alone
is not detected — the captured output is parsed exactly as for a zero
exit status, in both variants. -/
theorem c3_exec_failure_fatal_exit_ignored :
    (∀ msg : String, DownloadMacOS.get_update (.error msg) = .error (.processorError msg)) ∧
    (∀ msg : String, macOSReleaseProvider.get_update (.error msg) = .error (.processorError msg)) ∧
    (∀ (rc rc2 : Int) (out : String),
      DownloadMacOS.get_update (.ok ⟨rc, out⟩) = DownloadMacOS.get_update (.ok ⟨rc2, out⟩)) ∧
    (∀ (rc rc2 : Int) (out : String),
      macOSReleaseProvider.get_update (.ok ⟨rc, out⟩) = macOSReleaseProvider.get_update (.ok ⟨rc2, out⟩)) :=
  ⟨fun _ => rfl, fun _ => rfl, fun _ _ _ => rfl, fun _ _ _ => rfl⟩

/-- C2: when the direct install-info descriptor file exists inside the
bundle, `get_os_version` returns the descriptor's nested
`System Image Info:version` value verbatim, leaves the mount table
untouched, and performs no attach and no detach operation. -/
theorem c2_direct_descriptor_verbatim_no_mount (fs : FS) (w : MountWorld) (app_path : String)
    (h : fs.isfile (pathJoin app_path "Contents/SharedSupport/InstallInfo.plist") = true) :
    get_os_version fs w app_path =
      ⟨.ok (fs.get_plist_key (pathJoin app_path "Contents/SharedSupport/InstallInfo.plist")
          "System Image Info:version"), w, 0, 0⟩ := by
  simp [get_os_version, h]

/-- C2 witness: the direct-descriptor case evaluated at a concrete
filesystem and bundle. -/
theorem c2_witness :
    get_os_version fsC2 wC2 appEx = ⟨.ok "12.3.1", wC2, 0, 0⟩ :=
  c2_direct_descriptor_verbatim_no_mount fsC2 wC2 appEx rfl

/-- C9: a catalog listing none of whose lines contains the marker
"Version" makes both `get_update` variants fail with the empty-list
`ProcessorError` rather than return any record. -/
theorem c9_no_version_lines_errors (rc : Int) (out : String)
    (h : ∀ l ∈ pySplit '\n' out, containsSub l "Version" = false) :
    DownloadMacOS.get_update (.ok ⟨rc, out⟩)
      = .error (.processorError "No updates have been found") ∧
    macOSReleaseProvider.get_update (.ok ⟨rc, out⟩)
      = .error (.processorError "Could not receive or parse updates") := by
  constructor
  · simp [DownloadMacOS.get_update, dm_parseLines_no_version _ h]
  · simp [macOSReleaseProvider.get_update, rp_parseLines_no_version _ h]

/-- C9 witness: a concrete listing with no "Version" line. -/
theorem c9_witness :
    DownloadMacOS.get_update (.ok ⟨0, "Finding available software"⟩)
      = .error (.processorError "No updates have been found") ∧
    macOSReleaseProvider.get_update (.ok ⟨0, "Finding available software"⟩)
      = .error (.processorError "Could not receive or parse updates") :=
  c9_no_version_lines_errors 0 "Finding available software" (by decide)

theorem get_dmg_mount_point_append (xs : List Image) (p : String) (es : List (Option String))
    (h : get_dmg_mount_point xs p = none) :
    get_dmg_mount_point (xs ++ [⟨p, es⟩]) p = es.findSome? id := by
  induction xs with
  | nil =>
    cases hf : es.findSome? id <;> simp [get_dmg_mount_point, hf]
  | cons x xs ih =>
    rw [get_dmg_mount_point] at h
    rw [List.cons_append, get_dmg_mount_point]
    by_cases hx : x.imagePath = p
    · simp only [hx, if_true] at h ⊢
      cases hf : x.entities.findSome? id with
      | some mp => rw [hf] at h; simp at h
      | none => rw [hf] at h; exact ih h
    · simp only [hx, if_false] at h ⊢
      exact ih h

/-- C7: mount idempotence.  In any world whose mount table does not
record an empty-string mount point for the image path (an empty mount
point is falsy to `if mount_point:` and would make even the source
re-attach), if the first `mount_dmg` call returns a non-empty mount
point, a second call on the same image path returns the same mount point
with the mount table unchanged and without invoking the attach
operation; and the first call invoked the attach operation at most
once. -/
theorem c7_mount_idempotent (w : MountWorld) (p : String)
    (hw : get_dmg_mount_point w.images p ≠ some "") :
    (∀ mp : String, mp ≠ "" → (mount_dmg w p).result = .ok mp →
      mount_dmg (mount_dmg w p).world p =
        ⟨.ok mp, (mount_dmg w p).world, 0⟩) ∧
    (mount_dmg w p).attaches ≤ 1 := by
  cases hg : get_dmg_mount_point w.images p with
  | some mp0 =>
    have hmp0 : ¬(mp0 = "") := fun h => hw (by rw [hg, h])
    constructor
    · intro mp hne hres
      simp [mount_dmg, hg, hmp0] at hres
      subst hres
      simp [mount_dmg, hg, hmp0]
    · simp [mount_dmg, hg, hmp0]
  | none =>
    cases ha : w.attachEntities with
    | none =>
      constructor
      · intro mp hne hres
        simp [mount_dmg, hg, ha] at hres
      · simp [mount_dmg, hg, ha]
    | some es =>
      cases hf : es.findSome? id with
      | none =>
        constructor
        · intro mp hne hres
          simp [mount_dmg, hg, ha, hf] at hres
        · simp [mount_dmg, hg, ha, hf]
      | some mp1 =>
        constructor
        · intro mp hne hres
          have happ := get_dmg_mount_point_append w.images p es hg
          simp [mount_dmg, hg, ha, hf] at hres
          subst hres
          simp [mount_dmg, hg, ha, hf, happ, hne]
        · simp [mount_dmg, hg, ha, hf]

/-- C7 witness: a fresh image attached once, then looked up. -/
theorem c7_witness :
    mount_dmg (mount_dmg wC7 pC7).world pC7 =
      ⟨.ok mpEx, (mount_dmg wC7 pC7).world, 0⟩ ∧
    (mount_dmg wC7 pC7).attaches ≤ 1 :=
  ⟨(c7_mount_idempotent wC7 pC7 (by decide)).1 mpEx (by decide) (by decide),
   (c7_mount_idempotent wC7 pC7 (by decide)).2⟩

theorem get_os_version_embedded (fs : FS) (w : MountWorld) (app_path mp : String)
    (w2 : MountWorld) (n : Nat)
    (h1 : fs.isfile (pathJoin app_path "Contents/SharedSupport/InstallInfo.plist") = false)
    (h2 : fs.isfile (pathJoin app_path "Contents/SharedSupport/SharedSupport.dmg") = true)
    (h3 : mount_dmg w (pathJoin app_path "Contents/SharedSupport/SharedSupport.dmg")
      = ⟨.ok mp, w2, n⟩)
    (h4 : mp ≠ "") :
    get_os_version fs w app_path =
      match unmount_dmg w2 mp with
      | .ok w3 =>
        ⟨(match fs.readNested (nestedPath mp) with
          | some v => .ok v
          | none => .ok ""), w3, n, 1⟩
      | .error e => ⟨.error e, w2, n, 1⟩ := by
  simp only [get_os_version, h1, h2, h3, Bool.false_eq_true, if_false, if_true]
  simp [h4, nestedPath, pathJoin]

/-- C4 counterexample: the claim says a failing forced detach during
cleanup is suppressed and `get_os_version` still returns the extraction
result.  At this input the nested read succeeds with "12.3", the detach
fails, and `get_os_version` raises the detach's `CalledProcessError`
instead of returning "12.3" (a Python `finally:` exception replaces the
pending return value). -/
theorem c4_detach_failure_discards_extraction :
    fsC4.readNested (nestedPath mpEx) = some "12.3" ∧
    get_os_version fsC4 wC4 appEx = ⟨.error .calledProcessError, wC4, 0, 1⟩ ∧
    (get_os_version fsC4 wC4 appEx).result ≠ .ok "12.3" :=
  ⟨rfl, by decide, by decide⟩

/-- C4 (amended): when the bundle has no direct descriptor, its support
image mounts to a non-empty mount point, and the forced detach performed
during cleanup fails, that failure propagates out of `get_os_version` as
the detach's `CalledProcessError`, discarding the extraction result
(whatever the nested read produced); the detach was still invoked exactly
once. -/
theorem c4_detach_failure_propagates (fs : FS) (w : MountWorld) (app_path mp : String)
    (w2 : MountWorld) (n : Nat)
    (h1 : fs.isfile (pathJoin app_path "Contents/SharedSupport/InstallInfo.plist") = false)
    (h2 : fs.isfile (pathJoin app_path "Contents/SharedSupport/SharedSupport.dmg") = true)
    (h3 : mount_dmg w (pathJoin app_path "Contents/SharedSupport/SharedSupport.dmg")
      = ⟨.ok mp, w2, n⟩)
    (h4 : mp ≠ "")
    (h5 : w2.detachOk = false) :
    get_os_version fs w app_path = ⟨.error .calledProcessError, w2, n, 1⟩ := by
  rw [get_os_version_embedded fs w app_path mp w2 n h1 h2 h3 h4]
  simp [unmount_dmg, h5]

/-- C4 witness: the amended behaviour evaluated at a concrete bundle with
the support image already mounted and a failing detach. -/
theorem c4_witness :
    get_os_version fsC4 wC4 appEx = ⟨.error .calledProcessError, wC4, 0, 1⟩ :=
  c4_detach_failure_propagates fsC4 wC4 appEx mpEx wC4 0 (by decide) (by decide)
    (by decide) (by decide) rfl

/-- C5 counterexample: the claim says that on any failure of the nested
asset-descriptor read `get_os_version` returns the empty string rather
than raising.  At this input the nested read fails and the cleanup detach
also fails: `get_os_version` raises the detach's `CalledProcessError`
instead of returning the empty string. -/
theorem c5_read_and_detach_failure_raises :
    fsC5.readNested (nestedPath mpEx) = none ∧
    get_os_version fsC5 wC5f appEx = ⟨.error .calledProcessError, wC5f, 0, 1⟩ ∧
    (get_os_version fsC5 wC5f appEx).result ≠ .ok "" :=
  ⟨rfl, by decide, by decide⟩

/-- C5 (amended): for a bundle with no direct descriptor whose embedded
support image mounts to a non-empty mount point, `get_os_version`
performs exactly the mount's attach operations and invokes the unmount
exactly once before returning, on every exit path of the nested read;
when the cleanup detach succeeds, a failing nested read yields the empty
string rather than an exception (a failing detach instead propagates, see
the C4 record). -/
theorem c5_embedded_image_scoped_unmount (fs : FS) (w : MountWorld) (app_path mp : String)
    (w2 : MountWorld) (n : Nat)
    (h1 : fs.isfile (pathJoin app_path "Contents/SharedSupport/InstallInfo.plist") = false)
    (h2 : fs.isfile (pathJoin app_path "Contents/SharedSupport/SharedSupport.dmg") = true)
    (h3 : mount_dmg w (pathJoin app_path "Contents/SharedSupport/SharedSupport.dmg")
      = ⟨.ok mp, w2, n⟩)
    (h4 : mp ≠ "") :
    (get_os_version fs w app_path).attaches = n ∧
    (get_os_version fs w app_path).detaches = 1 ∧
    (w2.detachOk = true → fs.readNested (nestedPath mp) = none →
      (get_os_version fs w app_path).result = .ok "") := by
  rw [get_os_version_embedded fs w app_path mp w2 n h1 h2 h3 h4]
  refine ⟨?_, ?_, ?_⟩
  · cases hu : unmount_dmg w2 mp <;> simp [hu]
  · cases hu : unmount_dmg w2 mp <;> simp [hu]
  · intro hd hr
    simp [unmount_dmg, hd, hr]

/-- C5 witness: the amended behaviour evaluated at a concrete bundle with
the support image already mounted, a failing nested read and a
succeeding detach. -/
theorem c5_witness :
    (get_os_version fsC5 wC5t appEx).attaches = 0 ∧
    (get_os_version fsC5 wC5t appEx).detaches = 1 ∧
    (wC5t.detachOk = true → fsC5.readNested (nestedPath mpEx) = none →
      (get_os_version fsC5 wC5t appEx).result = .ok "") :=
  c5_embedded_image_scoped_unmount fsC5 wC5t appEx mpEx wC5t 0 (by decide) (by decide)
    (by decide) (by decide)

/-- C6: if the versioned cached bundle path already exists, the
cache-manager main operation returns it immediately with
`changed = false`, performing no download and no copy; consequently a
run starting with no cache entry that completes successfully reports
`changed = true` and creates the entry, and the immediately following
run for the same version and release reports `changed = false` and
performs no download and no copy. -/
theorem c6_cache_hit_short_circuits (env : CacheEnv) :
    (∀ w : CacheWorld, installerCachePath env ∈ w.fsPaths →
      macOSDownloader.main env w =
        ⟨.ok (), false, installerCachePath env, cachePath env, false, w, 0, 0⟩) ∧
    (∀ w : CacheWorld, installerCachePath env ∉ w.fsPaths →
      (macOSDownloader.main env w).result = .ok () →
      (macOSDownloader.main env w).changed = true ∧
      macOSDownloader.main env (macOSDownloader.main env w).world =
        ⟨.ok (), false, installerCachePath env, cachePath env, false,
          (macOSDownloader.main env w).world, 0, 0⟩) := by
  constructor
  · intro w hmem
    simp [macOSDownloader.main, hmem]
  · intro w hmem hok
    cases hai : w.appsInstaller with
    | some inst =>
      cases hc : w.copyOk
      · exfalso
        simp [macOSDownloader.main, hmem, hai, hc] at hok
      · constructor
        · simp [macOSDownloader.main, hmem, hai, hc]
        · simp [macOSDownloader.main, hmem, hai, hc, List.mem_cons_self]
    | none =>
      cases hde : w.downloadExec with
      | error msg =>
        exfalso
        simp [macOSDownloader.main, hmem, hai, hde] at hok
      | ok u =>
        cases hdm : w.downloadMaterializes with
        | none =>
          exfalso
          simp [macOSDownloader.main, hmem, hai, hde, hdm] at hok
        | some inst =>
          cases hc : w.copyOk
          · exfalso
            simp [macOSDownloader.main, hmem, hai, hde, hdm, hc] at hok
          · constructor
            · simp [macOSDownloader.main, hmem, hai, hde, hdm, hc]
            · simp [macOSDownloader.main, hmem, hai, hde, hdm, hc, List.mem_cons_self]

/-- C6 witness: the cache-hit case and the two-successive-runs case
evaluated at concrete inputs. -/
theorem c6_witness :
    macOSDownloader.main envC6 wC6cached =
      ⟨.ok (), false, installerCachePath envC6, cachePath envC6, false, wC6cached, 0, 0⟩ ∧
    ((macOSDownloader.main envC6 wC6).changed = true ∧
      macOSDownloader.main envC6 (macOSDownloader.main envC6 wC6).world =
        ⟨.ok (), false, installerCachePath envC6, cachePath envC6, false,
          (macOSDownloader.main envC6 wC6).world, 0, 0⟩) :=
  ⟨(c6_cache_hit_short_circuits envC6).1 wC6cached (by decide),
   (c6_cache_hit_short_circuits envC6).2 wC6 (by decide) (by decide)⟩

theorem two_le_of_get1 {α : Type} (l : List α) (t : α) (h : l[1]? = some t) :
    2 ≤ l.length := by
  match l with
  | [] => simp at h
  | [a] => simp at h
  | a :: b :: rest => simp [List.length_cons]

theorem three_le_of_get2 {α : Type} (l : List α) (t : α) (h : l[2]? = some t) :
    3 ≤ l.length := by
  match l with
  | [] => simp at h
  | [a] => simp at h
  | [a, b] => simp at h
  | a :: b :: c :: rest => simp [List.length_cons]

theorem occursIn_single (c : Char) (l : List Char) : occursIn [c] l = true ↔ c ∈ l := by
  induction l with
  | nil => simp [occursIn]
  | cons b bs ih =>
    rw [occursIn]
    simp [leadsIn, ih, List.mem_cons]

theorem splitOnChar_ne_nil (sep : Char) (l : List Char) : splitOnChar sep l ≠ [] := by
  induction l with
  | nil => simp [splitOnChar]
  | cons x xs ih =>
    rw [splitOnChar]
    by_cases hx : x = sep
    · simp [hx]
    · rw [if_neg hx]
      cases hr : splitOnChar sep xs with
      | nil => exact absurd hr ih
      | cons y ys => simp

theorem splitOnChar_two_le (sep : Char) (l : List Char) :
    2 ≤ (splitOnChar sep l).length ↔ sep ∈ l := by
  induction l with
  | nil => simp [splitOnChar]
  | cons x xs ih =>
    rw [splitOnChar]
    by_cases hx : x = sep
    · rw [if_pos hx]
      have h1 : 0 < (splitOnChar sep xs).length :=
        List.length_pos.mpr (splitOnChar_ne_nil sep xs)
      simp only [List.length_cons]
      constructor
      · intro _; rw [← hx]; exact List.mem_cons_self x xs
      · intro _; omega
    · rw [if_neg hx]
      have h2 : (sep ∈ x :: xs) ↔ sep ∈ xs := by
        constructor
        · intro hm
          rcases List.mem_cons.mp hm with h | h
          · exact absurd h.symm hx
          · exact h
        · exact fun hm => List.mem_cons_of_mem x hm
      cases hr : splitOnChar sep xs with
      | nil => exact absurd hr (splitOnChar_ne_nil sep xs)
      | cons y ys =>
        rw [hr] at ih
        rw [h2]
        simpa using ih

theorem colon_of_get1 (s t : String) (h : (pySplit ':' s)[1]? = some t) :
    containsSub s ":" = true := by
  have h2 : 2 ≤ (pySplit ':' s).length := two_le_of_get1 _ _ h
  have h3 : (pySplit ':' s).length = (splitOnChar ':' s.data).length := by
    simp [pySplit]
  have h4 : ':' ∈ s.data := (splitOnChar_two_le ':' s.data).mp (by omega)
  have h5 : (":" : String).data = [':'] := rfl
  unfold containsSub
  rw [h5]
  exact (occursIn_single ':' s.data).mpr h4

theorem segsGo_error (l : List String) (e : PyErr) (h : segsGo l = .error e) :
    e = .indexError := by
  induction l with
  | nil => simp [segsGo] at h
  | cons s ss ih =>
    rw [segsGo] at h
    cases h1 : (pySplit ':' s)[1]? with
    | none => rw [h1] at h; injection h with h2; exact h2.symm
    | some t =>
      rw [h1] at h
      cases h2 : segsGo ss with
      | ok r => rw [h2] at h; simp at h
      | error e2 => rw [h2] at h; injection h with h3; rw [h3] at h2; exact ih h2

theorem segsGo_ok_length (l : List String) (res : List String) (h : segsGo l = .ok res) :
    res.length = l.length := by
  induction l generalizing res with
  | nil => rw [segsGo] at h; injection h with h2; rw [← h2]
  | cons s ss ih =>
    rw [segsGo] at h
    cases h1 : (pySplit ':' s)[1]? with
    | none => rw [h1] at h; simp at h
    | some t =>
      rw [h1] at h
      cases h2 : segsGo ss with
      | error e2 => rw [h2] at h; simp at h
      | ok rest =>
        rw [h2] at h
        injection h with h3
        rw [← h3]
        simp [List.length_cons, ih rest h2]

theorem segsGo_ok_colon (l : List String) (res : List String) (h : segsGo l = .ok res) :
    ∀ s ∈ l, containsSub s ":" = true := by
  induction l generalizing res with
  | nil => intro s hs; simp at hs
  | cons s0 ss ih =>
    rw [segsGo] at h
    cases h1 : (pySplit ':' s0)[1]? with
    | none => rw [h1] at h; simp at h
    | some t =>
      rw [h1] at h
      cases h2 : segsGo ss with
      | error e2 => rw [h2] at h; simp at h
      | ok rest =>
        intro s hs
        rcases List.mem_cons.mp hs with rfl | hmem
        · exact colon_of_get1 s t h1
        · exact ih rest h2 s hmem


theorem dm_parseLine_ok_shape (line : String) (r : DownloadMacOS.UpdateRecord)
    (h : DownloadMacOS.parseLine line = .ok r) :
    segmentsShapeOk line = true ∧ sizeIntOk line = true := by
  rw [DownloadMacOS.parseLine] at h
  split at h
  · simp at h
  · rename_i info hseg
    split at h
    · rename_i nm v sz h0 h1 h2
      split at h
      · rename_i k hk
        have hseg2 : segsGo (pySplit ',' line) = .ok info := by
          rw [← parseSegments]; exact hseg
        have hlen : info.length = (pySplit ',' line).length :=
          segsGo_ok_length _ _ hseg2
        have h3le : 3 ≤ (pySplit ',' line).length := by
          have := three_le_of_get2 info sz h2
          omega
        have hball : (pySplit ',' line).all (fun s => containsSub s ":") = true := by
          rw [List.all_eq_true]
          intro s hs
          exact segsGo_ok_colon _ _ hseg2 s hs
        constructor
        · unfold segmentsShapeOk
          rw [Bool.and_eq_true]
          exact ⟨decide_eq_true h3le, hball⟩
        · simp [sizeIntOk, hseg, h2, hk]
      · simp at h
    · simp at h

theorem rp_parseLine_ok_shape (line : String)
    (r : macOSReleaseProvider.UpdateRecord)
    (h : macOSReleaseProvider.parseLine line = .ok r) :
    segmentsShapeOk line = true := by
  rw [macOSReleaseProvider.parseLine] at h
  split at h
  · simp at h
  · rename_i info hseg
    split at h
    · rename_i nm v sz h0 h1 h2
      have hseg2 : segsGo (pySplit ',' line) = .ok info := by
        rw [← parseSegments]; exact hseg
      have hlen : info.length = (pySplit ',' line).length :=
        segsGo_ok_length _ _ hseg2
      have h3le : 3 ≤ (pySplit ',' line).length := by
        have := three_le_of_get2 info sz h2
        omega
      have hball : (pySplit ',' line).all (fun s => containsSub s ":") = true := by
        rw [List.all_eq_true]
        intro s hs
        exact segsGo_ok_colon _ _ hseg2 s hs
      unfold segmentsShapeOk
      rw [Bool.and_eq_true]
      exact ⟨decide_eq_true h3le, hball⟩
    · simp at h

theorem dm_parseLine_error_kind (line : String) (e : PyErr)
    (h : DownloadMacOS.parseLine line = .error e) :
    e = .indexError ∨ e = .valueError := by
  rw [DownloadMacOS.parseLine] at h
  split at h
  · rename_i e2 hseg
    injection h with h2
    rw [parseSegments] at hseg
    left
    rw [← h2]
    exact segsGo_error _ _ hseg
  · rename_i info hseg
    split at h
    · rename_i nm v sz h0 h1 h2
      split at h
      · simp at h
      · injection h with h3; right; exact h3.symm
    · injection h with h3; left; exact h3.symm

theorem rp_parseLine_error_kind (line : String) (e : PyErr)
    (h : macOSReleaseProvider.parseLine line = .error e) :
    e = .indexError ∨ e = .valueError := by
  rw [macOSReleaseProvider.parseLine] at h
  split at h
  · rename_i e2 hseg
    injection h with h2
    rw [parseSegments] at hseg
    left
    rw [← h2]
    exact segsGo_error _ _ hseg
  · rename_i info hseg
    split at h
    · simp at h
    · injection h with h3; left; exact h3.symm

theorem dm_parseLines_error_of_mem (ls : List String) (line : String)
    (hmem : line ∈ ls) (hv : containsSub line "Version" = true)
    (e0 : PyErr) (hp : DownloadMacOS.parseLine line = .error e0) :
    ∃ e, DownloadMacOS.parseLines ls = .error e ∧ (e = .indexError ∨ e = .valueError) := by
  induction ls with
  | nil => simp at hmem
  | cons l ls ih =>
    rw [DownloadMacOS.parseLines]
    rcases List.mem_cons.mp hmem with rfl | hmem2
    · rw [if_pos hv, hp]
      exact ⟨e0, rfl, dm_parseLine_error_kind line e0 hp⟩
    · by_cases hv2 : containsSub l "Version" = true
      · rw [if_pos hv2]
        cases hp2 : DownloadMacOS.parseLine l with
        | error e1 => exact ⟨e1, rfl, dm_parseLine_error_kind l e1 hp2⟩
        | ok r =>
          rcases ih hmem2 with ⟨e, he, hkind⟩
          rw [he]
          exact ⟨e, rfl, hkind⟩
      · rw [if_neg hv2]
        exact ih hmem2

theorem rp_parseLines_error_of_mem (ls : List String) (line : String)
    (hmem : line ∈ ls) (hv : containsSub line "Version" = true)
    (e0 : PyErr) (hp : macOSReleaseProvider.parseLine line = .error e0) :
    ∃ e, macOSReleaseProvider.parseLines ls = .error e ∧
      (e = .indexError ∨ e = .valueError) := by
  induction ls with
  | nil => simp at hmem
  | cons l ls ih =>
    rw [macOSReleaseProvider.parseLines]
    rcases List.mem_cons.mp hmem with rfl | hmem2
    · rw [if_pos hv, hp]
      exact ⟨e0, rfl, rp_parseLine_error_kind line e0 hp⟩
    · by_cases hv2 : containsSub l "Version" = true
      · rw [if_pos hv2]
        cases hp2 : macOSReleaseProvider.parseLine l with
        | error e1 => exact ⟨e1, rfl, rp_parseLine_error_kind l e1 hp2⟩
        | ok r =>
          rcases ih hmem2 with ⟨e, he, hkind⟩
          rw [he]
          exact ⟨e, rfl, hkind⟩
      · rw [if_neg hv2]
        exact ih hmem2

/-- C10: an output line that contains the marker "Version" but does not
split into at least three comma-separated segments each containing a
colon — or, in the byte-converting variant, whose third value after
stripping trailing 'K' is not a decimal integer — makes `get_update`
raise the corresponding Python exception (`IndexError`/`ValueError`)
instead of skipping the line. -/
theorem c10_malformed_version_line_raises :
    (∀ (rc : Int) (out line : String), line ∈ pySplit '\n' out →
      containsSub line "Version" = true →
      ¬(segmentsShapeOk line = true ∧ sizeIntOk line = true) →
      ∃ e, DownloadMacOS.get_update (.ok ⟨rc, out⟩) = .error e ∧
        (e = PyErr.indexError ∨ e = PyErr.valueError)) ∧
    (∀ (rc : Int) (out line : String), line ∈ pySplit '\n' out →
      containsSub line "Version" = true →
      segmentsShapeOk line = false →
      ∃ e, macOSReleaseProvider.get_update (.ok ⟨rc, out⟩) = .error e ∧
        (e = PyErr.indexError ∨ e = PyErr.valueError)) := by
  constructor
  · intro rc out line hmem hv hshape
    cases hp : DownloadMacOS.parseLine line with
    | ok r => exact absurd (dm_parseLine_ok_shape line r hp) hshape
    | error e0 =>
      rcases dm_parseLines_error_of_mem _ line hmem hv e0 hp with ⟨e, he, hkind⟩
      refine ⟨e, ?_, hkind⟩
      simp only [DownloadMacOS.get_update, he]
  · intro rc out line hmem hv hshape
    cases hp : macOSReleaseProvider.parseLine line with
    | ok r =>
      have := rp_parseLine_ok_shape line r hp
      rw [hshape] at this
      exact Bool.noConfusion this
    | error e0 =>
      rcases rp_parseLines_error_of_mem _ line hmem hv e0 hp with ⟨e, he, hkind⟩
      refine ⟨e, ?_, hkind⟩
      simp only [macOSReleaseProvider.get_update, he]

/-- C10 witness: the ill-shaped line "Version 12" (no comma-colon
structure) aborts both variants with an exception. -/
theorem c10_witness :
    (∃ e, DownloadMacOS.get_update (.ok ⟨0, "Version 12"⟩) = .error e ∧
      (e = PyErr.indexError ∨ e = PyErr.valueError)) ∧
    (∃ e, macOSReleaseProvider.get_update (.ok ⟨0, "Version 12"⟩) = .error e ∧
      (e = PyErr.indexError ∨ e = PyErr.valueError)) :=
  ⟨c10_malformed_version_line_raises.1 0 "Version 12" "Version 12"
      (by decide) (by decide) (by decide),
   c10_malformed_version_line_raises.2 0 "Version 12" "Version 12"
      (by decide) (by decide) (by decide)⟩
